import Mathlib

/-!
Shallow embedding of the two plotting scripts `plot-medrange.py` and
`plot-rollstats.py`.  Numeric values are modelled as rationals; the plotting
backend is modelled as a trace of abstract drawing events; diagnostic output
(`log`, which writes to stderr) is modelled as a separate list of structured
lines.  Python list subscript assignment and the loop state of the sparse
assembly loop in `plot2` are modelled explicitly.
-/

/-- One call into the plotting backend (matplotlib is out of scope; the
renderer only uses these capabilities: new-figure, draw-line,
fill-region-between, set-x-limits, set-y-limits, set-labels, legend, title and
save-to-format). -/
inductive PlotEvent where
  | figure
  | line (x : List ℕ) (y : List ℚ) (label : String)
  | fillBetween (x : List ℕ) (upper lower : List ℚ) (label : String)
  | xlimE (left right : ℤ)
  | ylimE (bottom top : ℚ)
  | xlabelE (s : String)
  | ylabelE (s : String)
  | legend
  | titleE (s : String)
  | savefig (fmt : String) (transparent : Bool)
  deriving DecidableEq, Repr

/-- Recognizer for a set-y-limits event. -/
def PlotEvent.isYlimE : PlotEvent → Bool
  | .ylimE _ _ => true
  | _ => false

/-- Recognizer for a set-x-limits event. -/
def PlotEvent.isXlimE : PlotEvent → Bool
  | .xlimE _ _ => true
  | _ => false

/-- `'png svg svgz'.split(' ')` — the formats accepted by the asserts at the
top of both `plot2` and `plot`. -/
def allowedFormats : List String := ["png", "svg", "svgz"]

/-- Python `'%d' % f`: conversion of a number to an integer by truncation
toward zero (used for the loss figures in the diagnostic lines). -/
def pyTrunc (q : ℚ) : ℤ := Int.tdiv q.num (q.den : ℤ)

/-- Python list subscript assignment `l[i] = v`: a nonnegative index must be
less than the length, a negative index counts from the end; anything else
raises IndexError (modelled as `none`). -/
def pySet (l : List ℚ) (i : ℤ) (v : ℚ) : Option (List ℚ) :=
  if 0 ≤ i then
    if i.toNat < l.length then some (l.set i.toNat v) else none
  else
    if 0 ≤ i + l.length then some (l.set (i + l.length).toNat v) else none

namespace Medrange

/-- One diagnostic line written by `log(...)` to stderr at the end of
`plot2`: the reported extremum value of the median tier and the integer loss
figure interpolated by `'(loss %d)'`. -/
inductive LogLine where
  | medianMin (value : ℚ) (loss : ℤ)
  | medianEnd (value : ℚ) (loss : ℤ)
  deriving DecidableEq, Repr

/-- The mutable state of the sparse assembly loop in `plot2`:
`p0, p5, p25, p50, p75, p95, p100 = [], [], [], [], [], [], []` and
`last_idx = -1`. -/
structure AsmState where
  p0 : List ℚ
  p5 : List ℚ
  p25 : List ℚ
  p50 : List ℚ
  p75 : List ℚ
  p95 : List ℚ
  p100 : List ℚ
  last_idx : ℤ
  deriving DecidableEq, Repr

/-- Initial loop state: seven empty lists, `last_idx = -1`. -/
def initState : AsmState := ⟨[], [], [], [], [], [], [], -1⟩

/-- The body of `if xval > last_idx:` — every tier is extended with
`[0] * (xval - last_idx)` and then `last_idx = len(p0) - 1`. -/
def extendS (s : AsmState) (xval : ℤ) : AsmState :=
  let n := (xval - s.last_idx).toNat
  let q0 := s.p0 ++ List.replicate n 0
  { p0 := q0
    p5 := s.p5 ++ List.replicate n 0
    p25 := s.p25 ++ List.replicate n 0
    p50 := s.p50 ++ List.replicate n 0
    p75 := s.p75 ++ List.replicate n 0
    p95 := s.p95 ++ List.replicate n 0
    p100 := s.p100 ++ List.replicate n 0
    last_idx := (q0.length : ℤ) - 1 }

/-- The seven subscript assignments `p0[xval] = vals[0]` … `p100[xval] =
vals[6]`.  `vals[k]` succeeds whenever the list has at least seven entries
(extra entries are never read); a shorter list raises IndexError. -/
def stepWrite (s1 : AsmState) (r : ℤ × List ℚ) : Option AsmState :=
  match r.2 with
  | v0 :: v1 :: v2 :: v3 :: v4 :: v5 :: v6 :: _ => do
    let q0 ← pySet s1.p0 r.1 v0
    let q5 ← pySet s1.p5 r.1 v1
    let q25 ← pySet s1.p25 r.1 v2
    let q50 ← pySet s1.p50 r.1 v3
    let q75 ← pySet s1.p75 r.1 v4
    let q95 ← pySet s1.p95 r.1 v5
    let q100 ← pySet s1.p100 r.1 v6
    some ⟨q0, q5, q25, q50, q75, q95, q100, s1.last_idx⟩
  | _ => none

/-- One iteration of `for xval, vals in ptiles:` in `plot2`. -/
def step (s : AsmState) (r : ℤ × List ℚ) : Option AsmState :=
  stepWrite (if s.last_idx < r.1 then extendS s r.1 else s) r

/-- The whole assembly loop of `plot2` over a (finite prefix of the) record
stream. -/
def assemble (records : List (ℤ × List ℚ)) : Option AsmState :=
  records.foldlM step initState

/-- `offset_ptiles2`: subtracts the scalar from every value of every tuple,
keeping indices and order. -/
def offset_ptiles2 (ptiles : List (ℤ × List ℚ)) (b : ℚ) : List (ℤ × List ℚ) :=
  ptiles.map (fun r => (r.1, r.2.map (fun v => v - b)))

/-- The two `log(...)` calls at the end of `plot2`.  `min(p50)` raises
ValueError on an empty list (modelled as `none`), `p50[0]` is the head and
`p50[-1]` the last element. -/
def diagLines : List ℚ → Option (List LogLine)
  | [] => none
  | h :: t =>
    let m := t.foldl min h
    let e := t.getLastD h
    some [LogLine.medianMin m (pyTrunc (h - m)), LogLine.medianEnd e (pyTrunc (h - e))]

/-- The drawing calls issued by `plot2` after the assembly loop, in source
order: median line, five fills, `plt.xlim(left=0, right=len(p100))` (the
`ymag`/`plt.ylim` lines are commented out in the source and therefore absent
here), labels, legend, title, `plt.savefig`. -/
def renderEvents (s : AsmState) (title xlabel ylabel fmt : String) (transparent : Bool) :
    List PlotEvent :=
  let x := List.range s.p0.length
  [PlotEvent.line x s.p50 "median",
   PlotEvent.fillBetween x s.p100 s.p95 "top 5%",
   PlotEvent.fillBetween x s.p95 s.p75 "next 20%",
   PlotEvent.fillBetween x s.p75 s.p25 "middle 50%",
   PlotEvent.fillBetween x s.p25 s.p5 "next 20%",
   PlotEvent.fillBetween x s.p5 s.p0 "bottom 5%",
   PlotEvent.xlimE 0 (s.p100.length : ℤ),
   PlotEvent.xlabelE xlabel,
   PlotEvent.ylabelE ylabel,
   PlotEvent.legend,
   PlotEvent.titleE title,
   PlotEvent.savefig fmt transparent]

/-- Failure modes of `plot2`: the format assert, an IndexError inside the
assembly loop, and the ValueError raised by `min(p50)` when the series is
empty. -/
inductive PErr where
  | assertFail
  | indexError
  | emptyMin
  deriving DecidableEq, Repr

/-- Observable outcome of one `plot2` call: backend events issued before
returning or failing, stderr diagnostic lines, and the error if one was
raised. -/
structure Plot2Out where
  events : List PlotEvent
  stderrLines : List LogLine
  error : Option PErr
  deriving DecidableEq, Repr

/-- `plot2`: format assert, `plt.figure()`, assembly loop, drawing calls and
`savefig`, then the two diagnostic lines (which fail on an empty series —
note `savefig` has already run at that point). -/
def plot2 (ptiles : List (ℤ × List ℚ)) (title xlabel ylabel fmt : String) (transparent : Bool) :
    Plot2Out :=
  if fmt ∈ allowedFormats then
    match assemble ptiles with
    | none => ⟨[PlotEvent.figure], [], some PErr.indexError⟩
    | some s =>
      let evs := PlotEvent.figure :: renderEvents s title xlabel ylabel fmt transparent
      match diagLines s.p50 with
      | none => ⟨evs, [], some PErr.emptyMin⟩
      | some ls => ⟨evs, ls, none⟩
  else ⟨[], [], some PErr.assertFail⟩

/-- The greatest index in the record stream (`-1` when empty), matching the
high-water-mark initialization of the loop. -/
def maxIdx (records : List (ℤ × List ℚ)) : ℤ :=
  records.foldl (fun m r => max m r.1) (-1)

/-- Loop invariant of the assembly loop: the seven tier lists always have
equal length and `last_idx` is always `len(p0) - 1`. -/
def Inv (s : AsmState) : Prop :=
  s.p5.length = s.p0.length ∧ s.p25.length = s.p0.length ∧ s.p50.length = s.p0.length ∧
  s.p75.length = s.p0.length ∧ s.p95.length = s.p0.length ∧ s.p100.length = s.p0.length ∧
  s.last_idx = (s.p0.length : ℤ) - 1

end Medrange

namespace Rollstats

/-- `make_expected_counts` from `plot-rollstats.py`: the analytic two-die
frequency column, `num_rolls * k / 36` for `k = 1,2,3,4,5,6,5,4,3,2,1`. -/
def make_expected_counts (num_rolls : ℚ) : List ℚ :=
  [num_rolls * 1 / 36, num_rolls * 2 / 36, num_rolls * 3 / 36, num_rolls * 4 / 36,
   num_rolls * 5 / 36, num_rolls * 6 / 36, num_rolls * 5 / 36, num_rolls * 4 / 36,
   num_rolls * 3 / 36, num_rolls * 2 / 36, num_rolls * 1 / 36]

/-- The accumulation loop of `plot`: `assert len(counts) == len(cnt)` then
element-wise `counts[i] += cnt[i]`; the assert raises (modelled as `none`) on
a length mismatch. -/
def accumGo : List ℚ → List (List ℚ) → Option (List ℚ)
  | counts, [] => some counts
  | counts, c :: rest =>
    if counts.length = c.length then accumGo (List.zipWith (fun x y => x + y) counts c) rest
    else none

/-- `counts = [0] * 11` followed by the accumulation loop. -/
def accumCounts (input : List (List ℚ)) : Option (List ℚ) := accumGo (List.replicate 11 0) input

/-- The normalization in `plot`: `total = sum(counts); freqs = [c/total for c
in counts]`, raising ZeroDivisionError (modelled as `none`) when the total is
zero. -/
def rollFreqs (input : List (List ℚ)) : Option (List ℚ) :=
  match accumCounts input with
  | none => none
  | some counts =>
    if counts.sum = 0 then none else some (counts.map (fun c => c / counts.sum))

/-- Python `max(freqs)`; the empty case is unreachable in `plot` because
`counts` always has eleven entries. -/
def pyMaxD : List ℚ → ℚ
  | [] => 0
  | a :: rest => rest.foldl max a

/-- Failure modes of `plot`: the format/length asserts and the
ZeroDivisionError during normalization. -/
inductive RErr where
  | assertFail
  | zeroDiv
  deriving DecidableEq, Repr

/-- Observable outcome of one `plot` call from `plot-rollstats.py`. -/
structure RollOut where
  events : List PlotEvent
  error : Option RErr
  deriving DecidableEq, Repr

/-- `plot` from `plot-rollstats.py`: format assert, count accumulation,
normalization (failing before `plt.figure()` when the total is zero), then the
actual/expected lines, `plt.xlim(left=2, right=12)`,
`plt.ylim(bottom=0, top=max(freqs)*1.1)`, labels, legend, title, `savefig`. -/
def rollPlot (input : List (List ℚ)) (title xlabel ylabel fmt : String) (transparent : Bool) :
    RollOut :=
  if fmt ∈ allowedFormats then
    match accumCounts input with
    | none => ⟨[], some RErr.assertFail⟩
    | some counts =>
      if counts.sum = 0 then ⟨[], some RErr.zeroDiv⟩
      else
        let freqs := counts.map (fun c => c / counts.sum)
        let x : List ℕ := List.range' 2 11
        ⟨[PlotEvent.figure,
          PlotEvent.line x freqs "actual",
          PlotEvent.line x (make_expected_counts 1) "expected",
          PlotEvent.xlimE 2 12,
          PlotEvent.ylimE 0 (pyMaxD freqs * (11 / 10)),
          PlotEvent.xlabelE xlabel,
          PlotEvent.ylabelE ylabel,
          PlotEvent.legend,
          PlotEvent.titleE title,
          PlotEvent.savefig fmt transparent], none⟩
  else ⟨[], some RErr.assertFail⟩

end Rollstats


/-! Helper lemmas shared by the claims below. -/

lemma pySet_inbounds (l : List ℚ) (i : ℤ) (v : ℚ) (h0 : 0 ≤ i) (h1 : i.toNat < l.length) :
    pySet l i v = some (l.set i.toNat v) := by
  unfold pySet
  rw [if_pos h0, if_pos h1]

lemma stepWrite_ok (s1 : Medrange.AsmState) (x : ℤ) (v0 v1 v2 v3 v4 v5 v6 : ℚ) (rest : List ℚ)
    (h0 : 0 ≤ x)
    (b0 : x.toNat < s1.p0.length) (b5 : x.toNat < s1.p5.length) (b25 : x.toNat < s1.p25.length)
    (b50 : x.toNat < s1.p50.length) (b75 : x.toNat < s1.p75.length)
    (b95 : x.toNat < s1.p95.length) (b100 : x.toNat < s1.p100.length) :
    Medrange.stepWrite s1 (x, v0 :: v1 :: v2 :: v3 :: v4 :: v5 :: v6 :: rest) =
      some ⟨s1.p0.set x.toNat v0, s1.p5.set x.toNat v1, s1.p25.set x.toNat v2,
            s1.p50.set x.toNat v3, s1.p75.set x.toNat v4, s1.p95.set x.toNat v5,
            s1.p100.set x.toNat v6, s1.last_idx⟩ := by
  unfold Medrange.stepWrite
  simp only [pySet_inbounds _ _ _ h0 b0, pySet_inbounds _ _ _ h0 b5,
    pySet_inbounds _ _ _ h0 b25, pySet_inbounds _ _ _ h0 b50, pySet_inbounds _ _ _ h0 b75,
    pySet_inbounds _ _ _ h0 b95, pySet_inbounds _ _ _ h0 b100, Option.bind_eq_bind,
    Option.some_bind]

lemma step_ok (s : Medrange.AsmState) (x : ℤ) (v0 v1 v2 v3 v4 v5 v6 : ℚ) (rest : List ℚ)
    (hInv : Medrange.Inv s) (hx : 0 ≤ x) :
    ∃ t, Medrange.step s (x, v0 :: v1 :: v2 :: v3 :: v4 :: v5 :: v6 :: rest) = some t ∧
      Medrange.Inv t ∧ t.last_idx = max s.last_idx x := by
  obtain ⟨h5, h25, h50, h75, h95, h100, hli⟩ := hInv
  unfold Medrange.step
  by_cases hlt : s.last_idx < x
  · rw [if_pos hlt]
    have hb : x.toNat < (Medrange.extendS s x).p0.length := by
      simp only [Medrange.extendS, List.length_append, List.length_replicate]
      omega
    have e5 : (Medrange.extendS s x).p5.length = (Medrange.extendS s x).p0.length := by
      simp [Medrange.extendS, h5]
    have e25 : (Medrange.extendS s x).p25.length = (Medrange.extendS s x).p0.length := by
      simp [Medrange.extendS, h25]
    have e50 : (Medrange.extendS s x).p50.length = (Medrange.extendS s x).p0.length := by
      simp [Medrange.extendS, h50]
    have e75 : (Medrange.extendS s x).p75.length = (Medrange.extendS s x).p0.length := by
      simp [Medrange.extendS, h75]
    have e95 : (Medrange.extendS s x).p95.length = (Medrange.extendS s x).p0.length := by
      simp [Medrange.extendS, h95]
    have e100 : (Medrange.extendS s x).p100.length = (Medrange.extendS s x).p0.length := by
      simp [Medrange.extendS, h100]
    rw [stepWrite_ok _ _ _ _ _ _ _ _ _ _ hx hb (e5 ▸ hb) (e25 ▸ hb) (e50 ▸ hb) (e75 ▸ hb)
      (e95 ▸ hb) (e100 ▸ hb)]
    refine ⟨_, rfl, ⟨?_, ?_, ?_, ?_, ?_, ?_, ?_⟩, ?_⟩
    · simp only [List.length_set]
      exact e5
    · simp only [List.length_set]
      exact e25
    · simp only [List.length_set]
      exact e50
    · simp only [List.length_set]
      exact e75
    · simp only [List.length_set]
      exact e95
    · simp only [List.length_set]
      exact e100
    · simp only [List.length_set, Medrange.extendS, List.length_append, List.length_replicate]
    · have hx2 : (Medrange.extendS s x).last_idx = max s.last_idx x := by
        simp only [Medrange.extendS, List.length_append, List.length_replicate]
        omega
      simpa using hx2
  · rw [if_neg hlt]
    have hb : x.toNat < s.p0.length := by omega
    rw [stepWrite_ok _ _ _ _ _ _ _ _ _ _ hx hb (h5 ▸ hb) (h25 ▸ hb) (h50 ▸ hb) (h75 ▸ hb)
      (h95 ▸ hb) (h100 ▸ hb)]
    refine ⟨_, rfl, ⟨?_, ?_, ?_, ?_, ?_, ?_, ?_⟩, ?_⟩ <;>
      simp only [List.length_set]
    · exact h5
    · exact h25
    · exact h50
    · exact h75
    · exact h95
    · exact h100
    · exact hli
    · omega

lemma list_length_seven {l : List ℚ} (h : l.length = 7) :
    ∃ v0 v1 v2 v3 v4 v5 v6 rest, l = v0 :: v1 :: v2 :: v3 :: v4 :: v5 :: v6 :: rest := by
  cases l with
  | nil => simp at h
  | cons v0 t0 =>
  cases t0 with
  | nil => simp at h
  | cons v1 t1 =>
  cases t1 with
  | nil => simp at h
  | cons v2 t2 =>
  cases t2 with
  | nil => simp at h
  | cons v3 t3 =>
  cases t3 with
  | nil => simp at h
  | cons v4 t4 =>
  cases t4 with
  | nil => simp at h
  | cons v5 t5 =>
  cases t5 with
  | nil => simp at h
  | cons v6 t6 => exact ⟨v0, v1, v2, v3, v4, v5, v6, t6, rfl⟩

lemma assembleGo_ok : ∀ (records : List (ℤ × List ℚ)) (s : Medrange.AsmState),
    Medrange.Inv s → (∀ r ∈ records, 0 ≤ r.1 ∧ r.2.length = 7) →
    ∃ t, List.foldlM Medrange.step s records = some t ∧ Medrange.Inv t ∧
      t.last_idx = records.foldl (fun m r => max m r.1) s.last_idx := by
  intro records
  induction records with
  | nil =>
    intro s hs _
    exact ⟨s, rfl, hs, rfl⟩
  | cons hd rest ih =>
    intro s hs hall
    obtain ⟨x, vals⟩ := hd
    obtain ⟨hx, hlen⟩ := hall (x, vals) (by simp)
    obtain ⟨v0, v1, v2, v3, v4, v5, v6, tl, rfl⟩ := list_length_seven hlen
    obtain ⟨t1, hstep, hinv1, hli1⟩ := step_ok s x v0 v1 v2 v3 v4 v5 v6 tl hs hx
    obtain ⟨t, hfold, hinv, hli⟩ := ih t1 hinv1 (fun r hr => hall r (by simp [hr]))
    refine ⟨t, ?_, hinv, ?_⟩
    · rw [List.foldlM_cons, hstep]
      simpa using hfold
    · rw [hli, hli1]
      rfl

lemma getLastD_cons_eq (a d : ℚ) (t : List ℚ) : (a :: t).getLastD d = t.getLastD a := by
  cases t <;> simp [List.getLastD]

lemma getLast?_cons_getLastD (a : ℚ) (t : List ℚ) : (a :: t).getLast? = some (t.getLastD a) := by
  induction t generalizing a with
  | nil => rfl
  | cons b tl ih =>
    rw [getLastD_cons_eq]
    calc (a :: b :: tl).getLast? = (b :: tl).getLast? := by simp [List.getLast?]
    _ = some (tl.getLastD b) := ih b

lemma sum_zipWith_add : ∀ (a b : List ℚ), a.length = b.length →
    (List.zipWith (fun x y => x + y) a b).sum = a.sum + b.sum := by
  intro a
  induction a with
  | nil =>
    intro b h
    cases b with
    | nil => simp
    | cons y ys => simp at h
  | cons x xs ih =>
    intro b h
    cases b with
    | nil => simp at h
    | cons y ys =>
      simp only [List.zipWith_cons_cons, List.sum_cons, ih ys (by simpa using h)]
      ring

lemma accumGo_ok : ∀ (input : List (List ℚ)) (acc : List ℚ),
    (∀ c ∈ input, c.length = acc.length) →
    ∃ r, Rollstats.accumGo acc input = some r ∧ r.length = acc.length ∧
      r.sum = acc.sum + (input.map List.sum).sum := by
  intro input
  induction input with
  | nil =>
    intro acc _
    exact ⟨acc, rfl, rfl, by simp⟩
  | cons c rest ih =>
    intro acc hc
    have hlen : acc.length = c.length := (hc c (by simp)).symm
    have hzlen : (List.zipWith (fun x y => x + y) acc c).length = acc.length := by
      simp [List.length_zipWith, hlen]
    obtain ⟨r, hr, hrl, hrs⟩ := ih (List.zipWith (fun x y => x + y) acc c)
      (fun d hd => (hc d (by simp [hd])).trans hzlen.symm)
    refine ⟨r, ?_, hrl.trans hzlen, ?_⟩
    · unfold Rollstats.accumGo
      rw [if_pos hlen]
      exact hr
    · rw [hrs, sum_zipWith_add acc c hlen]
      simp only [List.map_cons, List.sum_cons]
      ring

/-- Claim C1: feeding the assembly loop of `plot2` exactly the record stream
`[(0, T0), (3, T3)]`, where `T0` and `T3` are arbitrary seven-value tuples,
yields seven tier sequences of length 4 in which positions 1 and 2 hold the
neutral fill value 0, position 0 holds the components of `T0` and position 3
holds the components of `T3`. -/
theorem assemble_sparse_gap_fill (a0 a1 a2 a3 a4 a5 a6 b0 b1 b2 b3 b4 b5 b6 : ℚ) :
    Medrange.assemble [((0:ℤ), [a0,a1,a2,a3,a4,a5,a6]), ((3:ℤ), [b0,b1,b2,b3,b4,b5,b6])] =
      some ⟨[a0,0,0,b0], [a1,0,0,b1], [a2,0,0,b2], [a3,0,0,b3],
            [a4,0,0,b4], [a5,0,0,b5], [a6,0,0,b6], 3⟩ := rfl

/-- Claim C2: for every non-empty stream of sparse records with non-negative,
non-decreasing indices (each record a seven-value tuple), the assembly loop of
`plot2` succeeds and every one of the seven tier sequences has length equal to
the maximum index seen plus 1. -/
theorem assemble_length_eq_max_index_plus_one (records : List (ℤ × List ℚ))
    (_hne : records ≠ []) (_hchain : List.Chain' (fun a b => a.1 ≤ b.1) records)
    (hnn : ∀ r ∈ records, 0 ≤ r.1) (h7 : ∀ r ∈ records, r.2.length = 7) :
    ∃ t, Medrange.assemble records = some t ∧
      (t.p0.length : ℤ) = Medrange.maxIdx records + 1 ∧
      t.p5.length = t.p0.length ∧ t.p25.length = t.p0.length ∧ t.p50.length = t.p0.length ∧
      t.p75.length = t.p0.length ∧ t.p95.length = t.p0.length ∧ t.p100.length = t.p0.length := by
  obtain ⟨t, hfold, hinv, hli⟩ := assembleGo_ok records Medrange.initState
    ⟨rfl, rfl, rfl, rfl, rfl, rfl, by decide⟩ (fun r hr => ⟨hnn r hr, h7 r hr⟩)
  obtain ⟨i5, i25, i50, i75, i95, i100, ili⟩ := hinv
  refine ⟨t, hfold, ?_, i5, i25, i50, i75, i95, i100⟩
  have hmax : t.last_idx = Medrange.maxIdx records := hli
  omega

/-- Witness for C2 at the concrete stream `[(0, T0), (2, T2)]`. -/
theorem assemble_length_eq_max_index_plus_one_witness :
    ∃ t, Medrange.assemble [((0:ℤ), [1,2,3,4,5,6,7]), ((2:ℤ), [7,6,5,4,3,2,1])] = some t ∧
      (t.p0.length : ℤ) =
        Medrange.maxIdx [((0:ℤ), [1,2,3,4,5,6,7]), ((2:ℤ), [7,6,5,4,3,2,1])] + 1 ∧
      t.p5.length = t.p0.length ∧ t.p25.length = t.p0.length ∧ t.p50.length = t.p0.length ∧
      t.p75.length = t.p0.length ∧ t.p95.length = t.p0.length ∧ t.p100.length = t.p0.length :=
  assemble_length_eq_max_index_plus_one _ (by decide) (by simp [List.chain'_cons]) (by decide)
    (by decide)

/-- Counterexample to claim C3: on the one-record stream `[(0, (1,…,7))]`
(max tier value 7, min tier value 1) `plot2` issues no set-y-limits call at
all — in particular not `ylim [0, max(max p100, -min p0)] = ylim [0, 7]` —
because the `ymag`/`plt.ylim` lines are commented out in the source. -/
theorem plot2_ylim_cex :
    ((Medrange.plot2 [((0:ℤ), [1,2,3,4,5,6,7])] "t" "x" "y" "png" false).events.filter
      PlotEvent.isYlimE) = [] ∧
    PlotEvent.ylimE 0 7 ∉
      (Medrange.plot2 [((0:ℤ), [1,2,3,4,5,6,7])] "t" "x" "y" "png" false).events := by
  decide

/-- Claim C3 (amended): `plot2` never sets the y-axis limits, for any input
stream and any configuration — the `ymag` computation and the `plt.ylim` call
are commented out in the source, and the parsed `--ymin`/`--ymax` options are
never passed into `plot2`, so explicit overrides are not honored either. -/
theorem plot2_never_sets_ylim (ptiles : List (ℤ × List ℚ)) (title xl yl fmt : String)
    (tr : Bool) :
    ((Medrange.plot2 ptiles title xl yl fmt tr).events.filter PlotEvent.isYlimE) = [] := by
  unfold Medrange.plot2
  split
  · split
    · simp [PlotEvent.isYlimE]
    · split
      · simp [Medrange.renderEvents, PlotEvent.isYlimE]
      · simp [Medrange.renderEvents, PlotEvent.isYlimE]
  · simp

/-- Counterexample to claim C4: on the one-record stream `[(0, (1,…,7))]` the
assembled series has length `L = 1`, and the set-x-limits call is
`xlim [0, 1] = [0, L]`, not `xlim [0, 0] = [0, L-1]` as claimed. -/
theorem plot2_xlim_cex :
    ((Medrange.plot2 [((0:ℤ), [1,2,3,4,5,6,7])] "t" "x" "y" "png" false).events.filter
      PlotEvent.isXlimE) = [PlotEvent.xlimE 0 1] ∧
    PlotEvent.xlimE 0 0 ∉
      (Medrange.plot2 [((0:ℤ), [1,2,3,4,5,6,7])] "t" "x" "y" "png" false).events := by
  decide

/-- Claim C4 (amended): whenever the assembly loop succeeds, `plot2` issues
exactly one set-x-limits call and its limits are `[0, L]` where `L` is the
length of the max tier (`plt.xlim(left=0, right=len(p100))`) — that is, the
right limit is `L`, not `L-1`. -/
theorem plot2_xlim_right_eq_length (ptiles : List (ℤ × List ℚ)) (title xl yl fmt : String)
    (tr : Bool) (s : Medrange.AsmState) (hs : Medrange.assemble ptiles = some s)
    (hfmt : fmt ∈ allowedFormats) :
    ((Medrange.plot2 ptiles title xl yl fmt tr).events.filter PlotEvent.isXlimE) =
      [PlotEvent.xlimE 0 (s.p100.length : ℤ)] := by
  unfold Medrange.plot2
  rw [if_pos hfmt, hs]
  cases hd : Medrange.diagLines s.p50 <;>
    simp [hd, Medrange.renderEvents, PlotEvent.isXlimE]

/-- Witness for the amended C4 at the concrete stream `[(0, (1,…,7))]`. -/
theorem plot2_xlim_right_eq_length_witness :
    ((Medrange.plot2 [((0:ℤ), [1,2,3,4,5,6,7])] "t" "x" "y" "png" false).events.filter
      PlotEvent.isXlimE) = [PlotEvent.xlimE 0 1] := by
  exact plot2_xlim_right_eq_length [((0:ℤ), [1,2,3,4,5,6,7])] "t" "x" "y" "png" false
    ⟨[1],[2],[3],[4],[5],[6],[7],0⟩ rfl (by decide)

/-- Counterexample to claim C5: on the empty record stream `plot2` does raise
a failure at the diagnostics stage (`min(p50)` on an empty list), but the
chart HAS been written: the `savefig` call to the output destination is among
the events issued before the failure, contradicting "nothing is written to
the output destination". -/
theorem plot2_empty_savefig_cex :
    (Medrange.plot2 [] "t" "x" "y" "png" false).error = some Medrange.PErr.emptyMin ∧
    PlotEvent.savefig "png" false ∈ (Medrange.plot2 [] "t" "x" "y" "png" false).events := by
  decide

/-- Claim C5 (amended): on an empty record stream (`L = 0`), `plot2` raises a
failure (the ValueError from `min(p50)` on the empty median sequence) and
emits no diagnostic lines, but only after the chart artifact has already been
written: the `savefig` event occurs before the failure, for every title,
labels, transparency flag and accepted format. -/
theorem plot2_empty_series_error_after_savefig (title xl yl fmt : String) (tr : Bool)
    (hfmt : fmt ∈ allowedFormats) :
    (Medrange.plot2 [] title xl yl fmt tr).error = some Medrange.PErr.emptyMin ∧
    PlotEvent.savefig fmt tr ∈ (Medrange.plot2 [] title xl yl fmt tr).events ∧
    (Medrange.plot2 [] title xl yl fmt tr).stderrLines = [] := by
  unfold Medrange.plot2
  rw [if_pos hfmt]
  refine ⟨rfl, ?_, rfl⟩
  simp [Medrange.renderEvents, Medrange.assemble, Medrange.initState, Medrange.diagLines]

/-- Witness for the amended C5 on the empty stream with svg format. -/
theorem plot2_empty_series_error_after_savefig_witness :
    (Medrange.plot2 [] "a" "b" "c" "svg" true).error = some Medrange.PErr.emptyMin ∧
    PlotEvent.savefig "svg" true ∈ (Medrange.plot2 [] "a" "b" "c" "svg" true).events ∧
    (Medrange.plot2 [] "a" "b" "c" "svg" true).stderrLines = [] :=
  plot2_empty_series_error_after_savefig "a" "b" "c" "svg" true (by decide)

/-- Claim C6: whenever the assembled series is non-empty (length `L ≥ 1`,
expressed by the median tier having a head, a minimum and a last element),
`plot2` succeeds and emits exactly two diagnostic lines to the stderr stream
and no more: the first reports the minimum value `m` of the median tier with
integer loss `p50[0] - m`, the second the median tier's final value `e` with
integer loss `p50[0] - e` (losses truncated to integers by `'%d'`).  The
events sent to the chart output stream are exactly the drawing events — the
diagnostic lines live on the separate stderr channel, never among the chart
events. -/
theorem plot2_diag_lines (ptiles : List (ℤ × List ℚ)) (title xl yl fmt : String) (tr : Bool)
    (s : Medrange.AsmState) (hs : Medrange.assemble ptiles = some s)
    (hfmt : fmt ∈ allowedFormats) (m h e : ℚ)
    (hm : s.p50.min? = some m) (hh : s.p50.head? = some h) (he : s.p50.getLast? = some e) :
    (Medrange.plot2 ptiles title xl yl fmt tr).stderrLines =
      [Medrange.LogLine.medianMin m (pyTrunc (h - m)),
       Medrange.LogLine.medianEnd e (pyTrunc (h - e))] ∧
    (Medrange.plot2 ptiles title xl yl fmt tr).stderrLines.length = 2 ∧
    (Medrange.plot2 ptiles title xl yl fmt tr).error = none ∧
    (Medrange.plot2 ptiles title xl yl fmt tr).events =
      PlotEvent.figure :: Medrange.renderEvents s title xl yl fmt tr := by
  cases hp : s.p50 with
  | nil => rw [hp] at hh; simp at hh
  | cons h0 t0 =>
    rw [hp] at hm hh he
    have hm' : t0.foldl min h0 = m := by
      rw [List.min?] at hm
      exact Option.some.inj hm
    have hh' : h0 = h := Option.some.inj hh
    have he' : t0.getLastD h0 = e := by
      rw [getLast?_cons_getLastD] at he
      exact Option.some.inj he
    have hd : Medrange.diagLines s.p50 =
        some [Medrange.LogLine.medianMin m (pyTrunc (h - m)),
              Medrange.LogLine.medianEnd e (pyTrunc (h - e))] := by
      rw [hp]
      simp only [Medrange.diagLines]
      rw [hm', he', hh']
    unfold Medrange.plot2
    rw [if_pos hfmt, hs]
    simp [hd]

/-- Witness for C6 at the one-record stream `[(0, (1,…,7))]`: the median tier
is `[4]`, so both diagnostic lines report value 4 with loss `4 - 4`, which
truncates to the integer 0. -/
theorem plot2_diag_lines_witness :
    pyTrunc ((4:ℚ) - 4) = 0 ∧
    (Medrange.plot2 [((0:ℤ), [1,2,3,4,5,6,7])] "t" "x" "y" "png" false).stderrLines =
      [Medrange.LogLine.medianMin 4 (pyTrunc ((4:ℚ) - 4)),
       Medrange.LogLine.medianEnd 4 (pyTrunc ((4:ℚ) - 4))] ∧
    (Medrange.plot2 [((0:ℤ), [1,2,3,4,5,6,7])] "t" "x" "y" "png" false).stderrLines.length = 2 ∧
    (Medrange.plot2 [((0:ℤ), [1,2,3,4,5,6,7])] "t" "x" "y" "png" false).error = none := by
  have hc := plot2_diag_lines [((0:ℤ), [1,2,3,4,5,6,7])] "t" "x" "y" "png" false
    ⟨[1],[2],[3],[4],[5],[6],[7],0⟩ rfl (by decide) 4 4 4 rfl rfl rfl
  exact ⟨by norm_num [pyTrunc], hc.1, hc.2.1, hc.2.2.1⟩

/-- Claim C7: applying `offset_ptiles2` with offset `a` and then with offset
`b` gives exactly the same stream as applying it once with offset `a + b`
(over exact rationals the floating-point tolerance is equality), and one
application subtracts the scalar from every value of every tuple while
preserving indices, order and length; as a pure function it does not mutate
its input. -/
theorem offset_ptiles2_twice_eq_sum (ptiles : List (ℤ × List ℚ)) (a b : ℚ) :
    Medrange.offset_ptiles2 (Medrange.offset_ptiles2 ptiles a) b =
      Medrange.offset_ptiles2 ptiles (a + b) ∧
    Medrange.offset_ptiles2 ptiles a =
      ptiles.map (fun r => (r.1, r.2.map (fun v => v - a))) := by
  refine ⟨?_, rfl⟩
  induction ptiles with
  | nil => rfl
  | cons r rest ih =>
    obtain ⟨x, vals⟩ := r
    simp only [Medrange.offset_ptiles2, List.map_cons] at ih ⊢
    refine congrArg₂ _ ?_ ih
    refine congrArg _ ?_
    induction vals with
    | nil => rfl
    | cons v vs ihv =>
      simp only [List.map_cons, List.cons.injEq]
      exact ⟨sub_sub v a b, by simpa using ihv⟩

/-- Claim C8: the theoretical expected frequency vector `make_expected_counts 1`
equals `[1/36, 2/36, 3/36, 4/36, 5/36, 6/36, 5/36, 4/36, 3/36, 2/36, 1/36]`,
and for the single input record `[10,20,30,40,50,60,50,40,30,20,10]` (total
360) the observed frequency vector is that vector again; in particular the
6th slot (roll value 7) is `60/360 = 1/6`, exactly the theoretical value
`6/36`. -/
theorem expected_counts_and_observed_freq :
    Rollstats.make_expected_counts 1 =
      [1/36, 2/36, 3/36, 4/36, 5/36, 6/36, 5/36, 4/36, 3/36, 2/36, 1/36] ∧
    Rollstats.rollFreqs [[10,20,30,40,50,60,50,40,30,20,10]] =
      some [10/360, 20/360, 30/360, 40/360, 50/360, 60/360, 50/360, 40/360, 30/360, 20/360,
        10/360] ∧
    (Rollstats.rollFreqs [[10,20,30,40,50,60,50,40,30,20,10]]).bind (fun l => l.get? 5) =
      some (1/6) ∧
    (Rollstats.make_expected_counts 1).get? 5 = some (1/6) := by
  refine ⟨by norm_num [Rollstats.make_expected_counts], ?_, ?_, ?_⟩ <;>
    · simp only [Rollstats.rollFreqs, Rollstats.accumCounts, Rollstats.accumGo,
        Rollstats.make_expected_counts]
      norm_num [List.zipWith, List.replicate]

/-- Claim C9: for every input stream of 11-length count records whose
element-wise sum totals zero (including the empty stream), `plot` from
`plot-rollstats.py` fails with the ZeroDivisionError during normalization and
issues no backend events at all — in particular nothing is written to the
output destination, since `plt.figure()` and `plt.savefig` come after the
normalization in the source. -/
theorem rollPlot_zero_total_fails_before_output (input : List (List ℚ))
    (title xl yl fmt : String) (tr : Bool) (hfmt : fmt ∈ allowedFormats)
    (hlen : ∀ c ∈ input, c.length = 11) (hsum : (input.map List.sum).sum = 0) :
    Rollstats.rollPlot input title xl yl fmt tr = ⟨[], some Rollstats.RErr.zeroDiv⟩ := by
  obtain ⟨r, hr, hrl, hrs⟩ := accumGo_ok input (List.replicate 11 0) (by simpa using hlen)
  have hr0 : r.sum = 0 := by
    rw [hrs, hsum]
    simp
  have hac : Rollstats.accumCounts input = some r := hr
  unfold Rollstats.rollPlot
  rw [if_pos hfmt, hac]
  simp [hr0]

/-- Witness for C9 on the empty input stream. -/
theorem rollPlot_zero_total_fails_before_output_witness :
    Rollstats.rollPlot [] "t" "x" "y" "png" false = ⟨[], some Rollstats.RErr.zeroDiv⟩ :=
  rollPlot_zero_total_fails_before_output [] "t" "x" "y" "png" false (by decide) (by simp)
    (by simp)

/-- Claim C10: under the loop invariant (seven equal-length tiers,
`last_idx = len(p0) - 1`), a record whose index `x` satisfies
`0 ≤ x ≤ last_idx` is silently written over position `x` of all seven tiers
in place: no error is raised, `last_idx` is unchanged, the length of every
tier is unchanged and the seven tiers remain of equal length. -/
theorem step_overwrites_in_place (s : Medrange.AsmState) (x : ℤ) (v0 v1 v2 v3 v4 v5 v6 : ℚ)
    (hInv : Medrange.Inv s) (hx0 : 0 ≤ x) (hxle : x ≤ s.last_idx) :
    Medrange.step s (x, [v0, v1, v2, v3, v4, v5, v6]) =
      some ⟨s.p0.set x.toNat v0, s.p5.set x.toNat v1, s.p25.set x.toNat v2, s.p50.set x.toNat v3,
            s.p75.set x.toNat v4, s.p95.set x.toNat v5, s.p100.set x.toNat v6, s.last_idx⟩ ∧
    (s.p0.set x.toNat v0).length = s.p0.length ∧
    Medrange.Inv ⟨s.p0.set x.toNat v0, s.p5.set x.toNat v1, s.p25.set x.toNat v2,
      s.p50.set x.toNat v3, s.p75.set x.toNat v4, s.p95.set x.toNat v5, s.p100.set x.toNat v6,
      s.last_idx⟩ := by
  obtain ⟨h5, h25, h50, h75, h95, h100, hli⟩ := hInv
  have hb : x.toNat < s.p0.length := by omega
  refine ⟨?_, List.length_set _ _ _, ?_⟩
  · unfold Medrange.step
    rw [if_neg (by omega)]
    exact stepWrite_ok s x v0 v1 v2 v3 v4 v5 v6 [] hx0 hb (h5 ▸ hb) (h25 ▸ hb) (h50 ▸ hb)
      (h75 ▸ hb) (h95 ▸ hb) (h100 ▸ hb)
  · refine ⟨?_, ?_, ?_, ?_, ?_, ?_, ?_⟩ <;> simp only [List.length_set]
    · exact h5
    · exact h25
    · exact h50
    · exact h75
    · exact h95
    · exact h100
    · exact hli

/-- Witness for C10: a duplicate record at index 0 against a length-2 state
with high-water mark 1 overwrites position 0 in place. -/
theorem step_overwrites_in_place_witness :
    Medrange.step ⟨[1,2],[1,2],[1,2],[1,2],[1,2],[1,2],[1,2],1⟩ ((0:ℤ), [9,9,9,9,9,9,9]) =
      some ⟨[9,2],[9,2],[9,2],[9,2],[9,2],[9,2],[9,2],1⟩ ∧
    ([(9:ℚ),2]).length = ([(1:ℚ),2]).length ∧
    Medrange.Inv ⟨[9,2],[9,2],[9,2],[9,2],[9,2],[9,2],[9,2],1⟩ := by
  exact step_overwrites_in_place ⟨[1,2],[1,2],[1,2],[1,2],[1,2],[1,2],[1,2],1⟩ 0 9 9 9 9 9 9 9
    ⟨rfl, rfl, rfl, rfl, rfl, rfl, by decide⟩ (by decide) (by decide)
